import Mathlib

/-!
Verification development for the DocJan / Concatly duplicate-detection and
merge-lineage system.

The repository ships the Next.js frontend (pages, components and API routes)
together with deployment scripts; the backend engine (similarity pairing,
merge orchestrator, merge ledger, undo validator) is described by the design
document but its service code is not part of the source tree.  Frontend code
is embedded directly from the TypeScript sources; engine components are
modelled from the specification and marked as such in their doc comments.

Conventions: JS numbers that hold similarities are modelled as rationals,
document / tenant / content strings as `String`, machine integers as `Nat`,
JS `undefined`/missing JSON fields as `Option`, and fallible operations as
`Except`.
-/

namespace DocJan

/-- JS truthiness for an optional string field of a parsed JSON body:
`undefined`/`null` and the empty string are falsy. -/
def truthy : Option String → Bool
  | none => false
  | some s => s ≠ ""

/-! ### Similarity banding (frontend)

Three places in the frontend classify a similarity score into a band.
`src/nextjs/app/merge/page.tsx` (MergePageContent) and the content report in
`src/unnamed/part_009` (ContentReportPage) use inline conditional chains;
`src/nextjs/components/duplicates-page.tsx` defines `getSimilarityLevel`.
All are embedded here over rationals. -/

/-- Band label chain from `MergePageContent` in `src/nextjs/app/merge/page.tsx`:
similarity at least 0.9 is Very High, at least 0.8 High, at least 0.7 Medium,
otherwise Low. -/
def mergePageBand (s : ℚ) : String :=
  if s ≥ 9/10 then "Very High"
  else if s ≥ 8/10 then "High"
  else if s ≥ 7/10 then "Medium"
  else "Low"

/-- Result record of `getSimilarityLevel` in
`src/nextjs/components/duplicates-page.tsx`. -/
structure SimilarityLevel where
  level : String
  color : String
  deriving DecidableEq

/-- The `getSimilarityLevel` helper of the content report component
(`src/nextjs/components/duplicates-page.tsx`). -/
def getSimilarityLevel (s : ℚ) : SimilarityLevel :=
  if s ≥ 9/10 then ⟨"Very High", "text-red-600 dark:text-red-400"⟩
  else if s ≥ 8/10 then ⟨"High", "text-orange-600 dark:text-orange-400"⟩
  else if s ≥ 7/10 then ⟨"Medium", "text-yellow-600 dark:text-yellow-400"⟩
  else ⟨"Low", "text-green-600 dark:text-green-400"⟩

/-- Band label chain of the content report page in `src/unnamed/part_009`. -/
def contentReportBand (s : ℚ) : String :=
  if s ≥ 9/10 then "Very High"
  else if s ≥ 8/10 then "High"
  else if s ≥ 7/10 then "Medium"
  else "Low"

/-- The similarity figure displayed next to the band:
`Math.round(similarity * 100)`.  `Math.round` rounds half toward positive
infinity, which is the rounding convention of `round` on `ℚ`. -/
def displayedScore (s : ℚ) : ℤ :=
  round (s * 100)

/-! ### Unique Content figure (content report)

`src/nextjs/components/duplicates-page.tsx`, Summary Stats section: the
Unique Content percentage is guarded by JS truthiness of both
`total_documents` and `documents_with_duplicates`. -/

/-- Unique Content percentage from `src/nextjs/components/duplicates-page.tsx`:
the rounded percentage is computed only when both counters are truthy
(nonzero); otherwise the displayed figure is 0. -/
def uniqueContentPct (total withDup : ℕ) : ℤ :=
  if total ≠ 0 ∧ withDup ≠ 0 then
    round ((((total : ℚ) - (withDup : ℚ)) / (total : ℚ)) * 100)
  else 0

/-! ### Apply-merge request (merge page)

`src/nextjs/app/merge/page.tsx`: `handleApplyMerge(keepMain)` issues the
apply request unless `pairId`, `organization?.id` or `mergedContent` is
falsy; the two confirmation buttons call it with `true` (Keep Primary
Title) and `false` (Keep Similar Title). -/

/-- Body of `api.applyMerge` as sent by `handleApplyMerge` in
`src/nextjs/app/merge/page.tsx`.  `pair_id` is `parseInt(pairId)`; a `none`
value models the `NaN` result of a non-numeric id. -/
structure ApplyMergeBody where
  pair_id : Option ℕ
  organization_id : String
  merged_content : String
  keep_main : Bool
  deriving DecidableEq

/-- Longest prefix of decimal digits of a character list. -/
def digitsPrefix : List Char → List Char
  | [] => []
  | c :: cs => if c.isDigit then c :: digitsPrefix cs else []

/-- Numeric value of a list of decimal digits. -/
def digitsVal (ds : List Char) : ℕ :=
  ds.foldl (fun acc c => 10 * acc + (c.toNat - 48)) 0

/-- Leading-decimal-digit reading of JS `parseInt` as applied to the
page-id strings of this app (canonical decimal ids); `none` models `NaN`. -/
def jsParseInt (s : String) : Option ℕ :=
  match digitsPrefix s.data with
  | [] => none
  | ds => some (digitsVal ds)

/-- Client state read by `handleApplyMerge`: the `pairId` search parameter,
the Clerk organization id, and the drafted merged content. -/
structure MergePageState where
  pairId : Option String
  orgId : Option String
  mergedContent : String
  deriving DecidableEq

/-- The `handleApplyMerge` guard and request construction from
`src/nextjs/app/merge/page.tsx`: returns the request body it posts, or
`none` when the falsy-guard makes it return early. -/
def handleApplyMerge (st : MergePageState) (keepMain : Bool) : Option ApplyMergeBody :=
  match st.pairId, st.orgId with
  | some p, some o =>
    if p = "" ∨ o = "" ∨ st.mergedContent = "" then none
    else some ⟨jsParseInt p, o, st.mergedContent, keepMain⟩
  | _, _ => none

/-- Click handler of the Keep Primary Title button
(`onClick=handleApplyMerge(true)` in `src/nextjs/app/merge/page.tsx`). -/
def keepPrimaryTitleClick (st : MergePageState) : Option ApplyMergeBody :=
  handleApplyMerge st true

/-- Click handler of the Keep Similar Title button
(`onClick=handleApplyMerge(false)` in `src/nextjs/app/merge/page.tsx`). -/
def keepSimilarTitleClick (st : MergePageState) : Option ApplyMergeBody :=
  handleApplyMerge st false

/-! ### Confluence onboarding route (organization variant)

`src/nextjs/app/api/onboarding/confluence/route.ts`: the POST handler
validates body fields by JS truthiness, validates the URL, then calls
`OrganizationService.completeConfluenceOnboarding(orgId, creds)`. -/

/-- Stored Confluence credentials. -/
structure Creds where
  username : String
  baseUrl : String
  apiKey : String
  deriving DecidableEq

/-- Parsed JSON body of the onboarding POST; `none` models an absent field. -/
structure OnboardBody where
  orgId : Option String
  username : Option String
  baseUrl : Option String
  apiKey : Option String
  deriving DecidableEq

/-- Result of `OrganizationService.completeConfluenceOnboarding`. -/
inductive SaveResult where
  | success (secretId : String)
  | failure
  deriving DecidableEq

/-- HTTP response of the onboarding route, keeping the fields the claims
talk about. -/
structure RouteResponse where
  status : ℕ
  success : Bool
  secretId : Option String
  error : Option String
  deriving DecidableEq

/-- POST handler of `src/nextjs/app/api/onboarding/confluence/route.ts`.
`urlOk` stands for `new URL(baseUrl)` succeeding and `save` for
`OrganizationService.completeConfluenceOnboarding`; the second component
records every invocation of `save` with its arguments. -/
def onboardingPOST (urlOk : String → Bool) (save : String → Creds → SaveResult)
    (body : OnboardBody) : RouteResponse × List (String × Creds) :=
  if truthy body.orgId ∧ truthy body.username ∧ truthy body.baseUrl ∧ truthy body.apiKey then
    match body.orgId, body.username, body.baseUrl, body.apiKey with
    | some o, some u, some b, some k =>
      if urlOk b then
        match save o ⟨u, b, k⟩ with
        | .success sid => (⟨200, true, some sid, none⟩, [(o, ⟨u, b, k⟩)])
        | .failure => (⟨500, false, none, some "Failed to save configuration"⟩, [(o, ⟨u, b, k⟩)])
      else (⟨400, false, none, some "Invalid base URL format"⟩, [])
    | _, _, _, _ => (⟨400, false, none, some "Missing required fields"⟩, [])
  else (⟨400, false, none, some "Missing required fields"⟩, [])

/-! ### Stored-credential routes (tenant scoping)

`src/unnamed/part_004` stores Confluence credentials through
`UserService.storeConfluenceCredentials(userId, creds)` keyed by the Clerk
user id alone, and `src/nextjs/app/api/organization/credentials/route.ts`
reads them back through `UserService.getConfluenceCredentials(userId)`.
Neither route consults the caller's active organization. -/

/-- Authentication context returned by Clerk `auth()`: user id and the
active organization id, either possibly absent. -/
structure AuthCtx where
  userId : Option String
  orgId : Option String
  deriving DecidableEq

/-- The per-user credential store behind `UserService`. -/
abbrev UserStore := List (String × Creds)

/-- Assoc-list lookup for the user store. -/
def storeLookup (store : UserStore) (uid : String) : Option Creds :=
  (store.find? (fun e => e.1 = uid)).map (·.2)

/-- Response of the credential routes, keeping status and returned
credentials. -/
structure CredResponse where
  status : ℕ
  creds : Option Creds
  deriving DecidableEq

/-- POST handler of the user-scoped onboarding route (`src/unnamed/part_004`):
after the auth, field and URL checks it stores the credentials under the
caller's user id; the active organization of the session is ignored. -/
def storeUserCredsPOST (auth : AuthCtx) (urlOk : String → Bool)
    (username baseUrl apiKey : Option String) (store : UserStore) :
    CredResponse × UserStore :=
  match auth.userId with
  | none => (⟨401, none⟩, store)
  | some uid =>
    if truthy username ∧ truthy baseUrl ∧ truthy apiKey then
      match username, baseUrl, apiKey with
      | some u, some b, some k =>
        if urlOk b then (⟨200, none⟩, (uid, ⟨u, b, k⟩) :: store)
        else (⟨400, none⟩, store)
      | _, _, _ => (⟨400, none⟩, store)
    else (⟨400, none⟩, store)

/-- GET handler of `src/nextjs/app/api/organization/credentials/route.ts`:
requires a signed-in user and returns `UserService.getConfluenceCredentials
(userId)`; the organization id of the session is logged but never used. -/
def getCredentialsGET (auth : AuthCtx) (store : UserStore) : CredResponse :=
  match auth.userId with
  | none => ⟨401, none⟩
  | some uid =>
    match storeLookup store uid with
    | none => ⟨404, none⟩
    | some c => ⟨200, some c⟩

/-! ### Merge Ledger (spec sections 3 and 4.3)

Modelled from the spec: the ledger service code is not in the source tree;
only its frontend callers and tests are.  Operations are immutable once
created except for the completed-to-undone transition, which is held in a
separate set of undone operation ids so that the record list itself never
changes. -/

/-- Modelled from the spec: `MergeOperation`, the unit of record of the
Merge Ledger (spec section 3).  Every operation is appended with status
completed; the status transition lives in `Ledger.undone`. -/
structure MergeOp where
  id : ℕ
  tenantId : String
  timestamp : ℕ
  keptDocId : String
  deletedDocId : String
  keptPreMergeSnapshot : String
  deletedDocSnapshot : String
  appliedMergedContent : String
  deriving DecidableEq

/-- Modelled from the spec: the Merge Ledger state — the append-mostly list
of operations plus the ids whose status has been transitioned to undone. -/
structure Ledger where
  ops : List MergeOp
  undone : List ℕ
  deriving DecidableEq

/-- An operation counts as completed (active) while its id has not been
marked undone. -/
def isCompleted (L : Ledger) (op : MergeOp) : Bool :=
  ¬ op.id ∈ L.undone

/-- Two operations concern the same unordered document pair. -/
def samePair (a b : MergeOp) : Bool :=
  (a.keptDocId = b.keptDocId ∧ a.deletedDocId = b.deletedDocId) ∨
  (a.keptDocId = b.deletedDocId ∧ a.deletedDocId = b.keptDocId)

/-- Modelled from the spec: `append(op)` (spec section 4.3) fails if an
active (completed, non-undone) operation already exists for the same
unordered document pair. -/
def Ledger.append (L : Ledger) (op : MergeOp) : Except Unit Ledger :=
  if L.ops.any (fun z => samePair z op ∧ isCompleted L z) then .error ()
  else .ok ⟨L.ops ++ [op], L.undone⟩

/-- Modelled from the spec: `markUndone(opId)` (spec section 4.3)
transitions completed to undone and fails if the operation is not currently
completed. -/
def Ledger.markUndone (L : Ledger) (opId : ℕ) : Except Unit Ledger :=
  if L.ops.any (fun z => z.id = opId ∧ isCompleted L z) then
    .ok ⟨L.ops, opId :: L.undone⟩
  else .error ()

/-! ### Merge lineage (spec sections 3, 4.3 and 9)

Modelled from the spec: lineage is the derived, on-demand graph traversal
over the ledger keyed by the touches relation, traversed bidirectionally
(spec section 9 resolves the forward-only-versus-bidirectional ambiguity in
favour of the bidirectional reading). -/

/-- An operation touches a document when the document is its kept or its
deleted side. -/
def touchesDoc (op : MergeOp) (d : String) : Bool :=
  op.keptDocId = d ∨ op.deletedDocId = d

/-- An operation touches some document of a list. -/
def touchesAny (docs : List String) (op : MergeOp) : Bool :=
  docs.any (fun d => touchesDoc op d)

/-- Fuel-bounded closure collecting the operations connected to a growing
document set through the touches relation; each productive round moves at
least one operation out of `pending`, so fuel `pending.length + 1`
reaches the fixpoint. -/
def expandLineage : ℕ → List MergeOp → List String → List MergeOp
  | 0, _, _ => []
  | fuel + 1, pending, docs =>
    let hit := pending.filter (touchesAny docs)
    match hit with
    | [] => []
    | _ =>
      hit ++ expandLineage fuel (pending.filter (fun op => ¬ touchesAny docs op))
        (docs ++ hit.flatMap (fun op => [op.keptDocId, op.deletedDocId]))

/-- Modelled from the spec: `lineageFor(tenantId, docId)` (spec section
4.3) — all operations of the tenant transitively reachable from the
document through the touches relation. -/
def lineageFor (L : Ledger) (t : String) (d : String) : List MergeOp :=
  let pool := L.ops.filter (fun op => op.tenantId = t)
  expandLineage (pool.length + 1) pool [d]

/-- Modelled from the spec: the blocking set of the undo validation rule
(spec section 4.4) — operations in either lineage of the target with
status completed and a strictly later timestamp. -/
def blockers (L : Ledger) (t : String) (X : MergeOp) : List MergeOp :=
  ((lineageFor L t X.keptDocId ++ lineageFor L t X.deletedDocId).dedup).filter
    (fun z => isCompleted L z ∧ X.timestamp < z.timestamp)

/-- Latest-timestamp selection over a nonempty list of operations, used to
report `nextRequiredUndo`. -/
def mostRecent (b : MergeOp) (bs : List MergeOp) : MergeOp :=
  bs.foldl (fun acc z => if acc.timestamp < z.timestamp then z else acc) b

/-- Ledger lookup by tenant and operation id, the entry point of
`undo(tenantId, operationId)`. -/
def findOp (L : Ledger) (t : String) (opId : ℕ) : Option MergeOp :=
  L.ops.find? (fun op => op.id = opId ∧ op.tenantId = t)

/-! ### Content repository and vector index (spec sections 2 and 6) -/

/-- The content repository, an assoc list from document id to full
content. -/
abbrev Repo := List (String × String)

/-- Repository read (`getDocument`). -/
def repoGet (repo : Repo) (d : String) : Option String :=
  (repo.find? (fun e => e.1 = d)).map (·.2)

/-- Repository delete (`deleteDocument`). -/
def repoDelete (repo : Repo) (d : String) : Repo :=
  repo.filter (fun e => ¬ e.1 = d)

/-- Repository write (`updateDocument`, also used to recreate a document
from its snapshot on undo). -/
def repoSet (repo : Repo) (d : String) (content : String) : Repo :=
  (d, content) :: repoDelete repo d

/-- The vector index partition of one tenant, as the list of indexed
document ids. -/
abbrev Index := List String

/-- Index upsert. -/
def indexUpsert (idx : Index) (d : String) : Index :=
  if d ∈ idx then idx else d :: idx

/-- Index removal of a document id. -/
def indexRemove (idx : Index) (d : String) : Index :=
  idx.filter (fun e => ¬ e = d)

/-- Combined system state threaded through merge and undo: content
repository, vector index and merge ledger. -/
structure SysState where
  repo : Repo
  index : Index
  ledger : Ledger
  deriving DecidableEq

/-! ### Undo validator and executor (spec section 4.4)

Modelled from the spec: validation computes the blocking set over both
lineages; rejection reports the single most recent blocker as
`nextRequiredUndo` plus the full blocking set; execution restores the kept
snapshot, recreates the deleted document from its snapshot, upserts both
into the index and marks the operation undone. -/

/-- Typed undo errors (spec sections 4.4 and 7). -/
inductive UndoError where
  | operationNotFound
  | notCompleted
  | sequentialUndoRequired (nextRequiredUndo : ℕ) (blocking : List ℕ)
  deriving DecidableEq

/-- Modelled from the spec: `undo(tenantId, operationId)` — validator and
executor of spec section 4.4 over the combined system state. -/
def undoOp (S : SysState) (t : String) (opId : ℕ) : Except UndoError SysState :=
  match findOp S.ledger t opId with
  | none => .error .operationNotFound
  | some X =>
    match blockers S.ledger t X with
    | [] =>
      match S.ledger.markUndone X.id with
      | .error _ => .error .notCompleted
      | .ok L' =>
        .ok ⟨repoSet (repoSet S.repo X.deletedDocId X.deletedDocSnapshot)
               X.keptDocId X.keptPreMergeSnapshot,
             indexUpsert (indexUpsert S.index X.deletedDocId) X.keptDocId,
             L'⟩
    | b :: bs =>
      .error (.sequentialUndoRequired (mostRecent b bs).id ((b :: bs).map (·.id)))

/-! ### Merge orchestrator (spec section 4.2)

Modelled from the spec: the orchestrator drafts merged content, snapshots
both documents, updates the kept document, deletes the other, updates the
vector index and finally appends the completed operation to the ledger.
External capabilities are injected: `draft` is the merge-authoring
capability and `MergeEnv` fixes which external calls succeed during the
run.  The returned event list records the repository mutations actually
performed, in order. -/

/-- A content-repository mutation performed by the orchestrator. -/
inductive RepoEvent where
  | update (d : String) (content : String)
  | delete (d : String)
  deriving DecidableEq

/-- Outcome of each external call during one merge run. -/
structure MergeEnv where
  draftOk : Bool
  updateOk : Bool
  deleteOk : Bool
  embedOk : Bool
  deriving DecidableEq

/-- Typed merge errors (spec sections 4.2 and 7).  A failed delete after a
successful update is the distinct partial-failure kind. -/
inductive MergeError where
  | documentMissing
  | mergeDraftFailed
  | repositoryMutationFailedKeptUpdate
  | partialMergeState
  | embeddingUnavailable
  | appendFailed
  deriving DecidableEq

/-- Modelled from the spec: `merge(tenantId, pair, keepSide)` resolved to
the kept and deleted document ids (spec section 4.2).  Returns the created
operation on success, the final system state, and the ordered repository
mutations performed. -/
def mergeOp (env : MergeEnv) (draft : String → String → String) (S : SysState)
    (t keptId deletedId : String) (opId ts : ℕ) :
    Except MergeError MergeOp × SysState × List RepoEvent :=
  match repoGet S.repo keptId, repoGet S.repo deletedId with
  | some keptContent, some deletedContent =>
    if env.draftOk then
      let merged := draft keptContent deletedContent
      if env.updateOk then
        let repo1 := repoSet S.repo keptId merged
        if env.deleteOk then
          let repo2 := repoDelete repo1 deletedId
          let ev : List RepoEvent := [.update keptId merged, .delete deletedId]
          if env.embedOk then
            let idx2 := indexUpsert (indexRemove S.index deletedId) keptId
            let op : MergeOp :=
              ⟨opId, t, ts, keptId, deletedId, keptContent, deletedContent, merged⟩
            match S.ledger.append op with
            | .ok L' => (.ok op, ⟨repo2, idx2, L'⟩, ev)
            | .error _ => (.error .appendFailed, ⟨repo2, S.index, S.ledger⟩, ev)
          else (.error .embeddingUnavailable, ⟨repo2, S.index, S.ledger⟩, ev)
        else (.error .partialMergeState, ⟨repo1, S.index, S.ledger⟩,
              [.update keptId merged])
      else (.error .repositoryMutationFailedKeptUpdate, S, [])
    else (.error .mergeDraftFailed, S, [])
  | _, _ => (.error .documentMissing, S, [])

/-! ### Similarity pairing engine (spec section 4.1)

Modelled from the spec: candidate pairs of one tenant with similarity at
least the threshold, symmetric pairs canonicalised as (smaller id, larger
id), already merged or ignored pairs excluded, sorted descending by
similarity with ties broken by the older (smaller) document id first.
The cosine-similarity capability is injected as `sim` on canonical pairs;
document ids are creation-ordered naturals, so the older document is the
one with the smaller id. -/

/-- A document as held in the vector index partition. -/
structure Doc where
  id : ℕ
  tenantId : String
  deriving DecidableEq

/-- All canonical (smaller id, larger id) pairs of a list of document
ids. -/
def canonPairs (l : List ℕ) : List (ℕ × ℕ) :=
  l.flatMap (fun a => l.filterMap (fun b => if a < b then some (a, b) else none))

/-- A ranked candidate entry: similarity with the canonical pair. -/
abbrev CandEntry := ℚ × ℕ × ℕ

/-- Ranking order of the pairing output: strictly greater similarity first;
on equal similarity the pair with the older (smaller) first id first, then
the smaller second id. -/
def pairOrder (x y : CandEntry) : Prop :=
  y.1 < x.1 ∨ (x.1 = y.1 ∧ (x.2.1 < y.2.1 ∨ (x.2.1 = y.2.1 ∧ x.2.2 ≤ y.2.2)))

instance : DecidableRel pairOrder := fun x y =>
  inferInstanceAs (Decidable (y.1 < x.1 ∨
    (x.1 = y.1 ∧ (x.2.1 < y.2.1 ∨ (x.2.1 = y.2.1 ∧ x.2.2 ≤ y.2.2)))))

instance : IsTotal CandEntry pairOrder := by
  constructor
  intro x y
  rcases lt_trichotomy x.1 y.1 with h | h | h
  · exact Or.inr (Or.inl h)
  · rcases lt_trichotomy x.2.1 y.2.1 with h2 | h2 | h2
    · exact Or.inl (Or.inr ⟨h, Or.inl h2⟩)
    · rcases le_total x.2.2 y.2.2 with h3 | h3
      · exact Or.inl (Or.inr ⟨h, Or.inr ⟨h2, h3⟩⟩)
      · exact Or.inr (Or.inr ⟨h.symm, Or.inr ⟨h2.symm, h3⟩⟩)
    · exact Or.inr (Or.inr ⟨h.symm, Or.inl h2⟩)
  · exact Or.inl (Or.inl h)

instance : IsTrans CandEntry pairOrder := by
  constructor
  intro x y z hxy hyz
  rcases hxy with h | ⟨he, h⟩ <;> rcases hyz with h' | ⟨he', h'⟩
  · exact Or.inl (h'.trans h)
  · exact Or.inl (he' ▸ h)
  · exact Or.inl (he ▸ h')
  · refine Or.inr ⟨he.trans he', ?_⟩
    rcases h with h2 | ⟨he2, h2⟩ <;> rcases h' with h2' | ⟨he2', h2'⟩
    · exact Or.inl (h2.trans h2')
    · exact Or.inl (he2' ▸ h2)
    · exact Or.inl (he2 ▸ h2')
    · exact Or.inr ⟨he2.trans he2', h2.trans h2'⟩

instance : IsAntisymm CandEntry pairOrder := by
  constructor
  intro x y hxy hyx
  obtain ⟨x1, x2, x3⟩ := x
  obtain ⟨y1, y2, y3⟩ := y
  rcases hxy with h | ⟨he, h⟩
  · rcases hyx with h' | ⟨he', h'⟩
    · exact absurd (h.trans h') (lt_irrefl _)
    · exact absurd (he' ▸ h) (lt_irrefl _)
  · rcases hyx with h' | ⟨he', h'⟩
    · exact absurd (he ▸ h') (lt_irrefl _)
    · cases he
      rcases h with h2 | ⟨he2, h2⟩
      · rcases h' with h2' | ⟨he2', h2'⟩
        · exact absurd (h2.trans h2') (lt_irrefl _)
        · exact absurd (he2' ▸ h2) (lt_irrefl _)
      · rcases h' with h2' | ⟨he2', h2'⟩
        · exact absurd (he2 ▸ h2') (lt_irrefl _)
        · cases he2
          have : x3 = y3 := le_antisymm h2 h2'
          simp [this]

/-- Modelled from the spec: `listCandidatePairs(tenantId, threshold)` (spec
sections 4.1 and 6).  `sim` is the similarity capability on canonical
pairs and `excluded` the already-merged-or-ignored predicate. -/
def listCandidatePairs (sim : ℕ → ℕ → ℚ) (t : String) (θ : ℚ)
    (excluded : ℕ × ℕ → Bool) (idx : List Doc) : List CandEntry :=
  List.insertionSort pairOrder
    (((canonPairs ((idx.filter (fun d => d.tenantId = t)).map Doc.id)).filter
        (fun p => θ ≤ sim p.1 p.2 ∧ ¬ excluded p)).map
      (fun p => (sim p.1 p.2, p.1, p.2)))

/-! ## Theorems -/

/-- C8: for every similarity value the displayed band is Very High iff the
value is at least 0.9, High iff it is in [0.8, 0.9), Medium iff it is in
[0.7, 0.8) and Low otherwise; the displayed score is round(100 times the
value); and the merge page, the duplicates-page helper and the content
report assign the same band to the same value. -/
theorem similarity_bands_agree (s : ℚ) :
    (mergePageBand s = "Very High" ↔ 9/10 ≤ s) ∧
    (mergePageBand s = "High" ↔ 8/10 ≤ s ∧ s < 9/10) ∧
    (mergePageBand s = "Medium" ↔ 7/10 ≤ s ∧ s < 8/10) ∧
    (mergePageBand s = "Low" ↔ s < 7/10) ∧
    (getSimilarityLevel s).level = mergePageBand s ∧
    contentReportBand s = mergePageBand s ∧
    displayedScore s = round (100 * s) := by
  unfold mergePageBand getSimilarityLevel contentReportBand displayedScore
  rw [mul_comm]
  split_ifs with h1 h2 h3
  · exact ⟨iff_of_true rfl h1,
      iff_of_false (by decide) (fun h => absurd h1 (not_le.mpr h.2)),
      iff_of_false (by decide)
        (fun h => absurd h1 (not_le.mpr (h.2.trans (by norm_num)))),
      iff_of_false (by decide) (not_lt.mpr (le_trans (by norm_num) h1)),
      rfl, rfl, rfl⟩
  · exact ⟨iff_of_false (by decide) h1,
      iff_of_true rfl ⟨h2, not_le.mp h1⟩,
      iff_of_false (by decide) (fun h => absurd h2 (not_le.mpr h.2)),
      iff_of_false (by decide) (not_lt.mpr (le_trans (by norm_num) h2)),
      rfl, rfl, rfl⟩
  · exact ⟨iff_of_false (by decide) h1,
      iff_of_false (by decide) (fun h => h2 h.1),
      iff_of_true rfl ⟨h3, not_le.mp h2⟩,
      iff_of_false (by decide) (not_lt.mpr h3),
      rfl, rfl, rfl⟩
  · exact ⟨iff_of_false (by decide) h1,
      iff_of_false (by decide) (fun h => h2 h.1),
      iff_of_false (by decide) (fun h => h3 h.1),
      iff_of_true rfl (not_le.mp h3),
      rfl, rfl, rfl⟩

/-- C9: the Unique Content figure equals the rounded percentage of
documents without duplicates exactly when both counters are nonzero, and is
0 otherwise; in particular a tenant with documents but no duplicates is
shown 0, and the division is never reached when the total is 0. -/
theorem uniqueContent_guarded (total withDup : ℕ) :
    (total ≠ 0 → withDup ≠ 0 →
      uniqueContentPct total withDup =
        round ((((total : ℚ) - (withDup : ℚ)) / (total : ℚ)) * 100)) ∧
    (total = 0 ∨ withDup = 0 → uniqueContentPct total withDup = 0) ∧
    uniqueContentPct total 0 = 0 := by
  unfold uniqueContentPct
  refine ⟨fun h1 h2 => by simp [h1, h2], fun h => ?_, by simp⟩
  rcases h with h | h <;> simp [h]

/-- Witness for C9: a tenant with 4 documents of which 1 has a duplicate is
shown 75 percent unique content, and a tenant with 10 documents and no
duplicates is shown 0. -/
theorem uniqueContent_guarded_witness :
    uniqueContentPct 4 1 = 75 ∧ uniqueContentPct 10 0 = 0 := by
  constructor
  · rw [(uniqueContent_guarded 4 1).1 (by decide) (by decide)]
    norm_num
  · exact (uniqueContent_guarded 10 0).2.1 (Or.inr rfl)

/-- C7: every apply-merge request issued from the merge page carries the
drafted merged content, the organization id, the parsed pair id, and the
keep-side flag: the Keep Primary Title button sends keep_main true and the
Keep Similar Title button sends keep_main false. -/
theorem applyMerge_keepSide (st : MergePageState) (req : ApplyMergeBody) :
    (keepPrimaryTitleClick st = some req →
      req.keep_main = true ∧ req.merged_content = st.mergedContent ∧
      st.orgId = some req.organization_id ∧
      ∃ p, st.pairId = some p ∧ req.pair_id = jsParseInt p) ∧
    (keepSimilarTitleClick st = some req →
      req.keep_main = false ∧ req.merged_content = st.mergedContent ∧
      st.orgId = some req.organization_id ∧
      ∃ p, st.pairId = some p ∧ req.pair_id = jsParseInt p) := by
  unfold keepPrimaryTitleClick keepSimilarTitleClick handleApplyMerge
  constructor <;>
  · intro h
    revert h
    rcases hp : st.pairId with _ | p <;> rcases ho : st.orgId with _ | o <;>
      intro h <;> simp only [reduceCtorEq] at h
    split at h
    · exact absurd h (by simp)
    · obtain rfl : req = ⟨jsParseInt p, o, st.mergedContent, _⟩ :=
        (Option.some_inj.mp h).symm
      exact ⟨rfl, rfl, rfl, p, rfl, rfl⟩

/-- Witness for C7: with pair id 5, organization org_1 and nonempty drafted
content, the two confirmation buttons produce the two request bodies that
differ exactly in keep_main. -/
theorem applyMerge_keepSide_witness :
    (⟨some 5, "org_1", "merged text", true⟩ : ApplyMergeBody).keep_main = true ∧
    (⟨some 5, "org_1", "merged text", false⟩ : ApplyMergeBody).keep_main = false := by
  have h5 : jsParseInt "5" = some 5 := by decide
  refine ⟨?_, ?_⟩
  · exact ((applyMerge_keepSide ⟨some "5", some "org_1", "merged text"⟩
      ⟨some 5, "org_1", "merged text", true⟩).1 (by rw [← h5]; rfl)).1
  · exact ((applyMerge_keepSide ⟨some "5", some "org_1", "merged text"⟩
      ⟨some 5, "org_1", "merged text", false⟩).2 (by rw [← h5]; rfl)).1

/-- Credentials of the organization org_T2 as entered during its
Confluence onboarding. -/
def credsT2 : Creds :=
  ⟨"alice@org-t2.example", "https://org-t2.atlassian.net/wiki", "token-t2"⟩

/-- C2: the stored-credential routes ignore the tenant.  A credential
saved by user_1 during an org_T2 session is stored keyed by the user id
alone, a later read in an org_T1 session returns it, and the response of
the read is identical whichever organization is active — the cross-tenant
isolation the claim asserts does not hold on this code path. -/
theorem credentials_cross_tenant_bug :
    (storeUserCredsPOST ⟨some "user_1", some "org_T2"⟩ (fun _ => true)
        (some credsT2.username) (some credsT2.baseUrl) (some credsT2.apiKey)
        []).2 = [("user_1", credsT2)] ∧
    getCredentialsGET ⟨some "user_1", some "org_T1"⟩ [("user_1", credsT2)] =
      ⟨200, some credsT2⟩ ∧
    getCredentialsGET ⟨some "user_1", some "org_T1"⟩ [("user_1", credsT2)] =
      getCredentialsGET ⟨some "user_1", some "org_T2"⟩ [("user_1", credsT2)] := by
  decide

/-- Body of an onboarding POST whose fields are all present but whose
username is the empty string. -/
def emptyUserBody : OnboardBody :=
  ⟨some "org_1", some "", some "https://example.atlassian.net", some "tok"⟩

/-- Counterexample to C10 as stated: a body with all four fields present
and a parseable baseUrl, but an empty username, is answered 400 and the
save is never invoked, while the claim requires the save to run exactly
once for every body whose fields are all present with a parseable URL. -/
theorem onboarding_emptyField_cex :
    emptyUserBody.orgId ≠ none ∧ emptyUserBody.username ≠ none ∧
    emptyUserBody.baseUrl ≠ none ∧ emptyUserBody.apiKey ≠ none ∧
    (onboardingPOST (fun _ => true) (fun _ _ => .success "secret-1")
      emptyUserBody).1.status = 400 ∧
    (onboardingPOST (fun _ => true) (fun _ _ => .success "secret-1")
      emptyUserBody).2 = [] := by
  decide

/-- C10 (amended): if any of the four body fields is absent or empty, or
the baseUrl does not parse, the route answers 400 without invoking the
save; otherwise the save is invoked exactly once, a failed save yields 500,
and a successful save yields the 200 success response carrying the returned
secretId. -/
theorem onboarding_route_behaviour (urlOk : String → Bool)
    (save : String → Creds → SaveResult) (body : OnboardBody) :
    (¬ (truthy body.orgId ∧ truthy body.username ∧
        truthy body.baseUrl ∧ truthy body.apiKey) →
      (onboardingPOST urlOk save body).1.status = 400 ∧
      (onboardingPOST urlOk save body).2 = []) ∧
    (∀ o u b k, body = ⟨some o, some u, some b, some k⟩ →
      o ≠ "" → u ≠ "" → b ≠ "" → k ≠ "" →
      (urlOk b = false →
        (onboardingPOST urlOk save body).1.status = 400 ∧
        (onboardingPOST urlOk save body).2 = []) ∧
      (urlOk b = true →
        (onboardingPOST urlOk save body).2 = [(o, ⟨u, b, k⟩)] ∧
        (save o ⟨u, b, k⟩ = .failure →
          (onboardingPOST urlOk save body).1.status = 500) ∧
        (∀ sid, save o ⟨u, b, k⟩ = .success sid →
          (onboardingPOST urlOk save body).1 = ⟨200, true, some sid, none⟩))) := by
  constructor
  · intro h
    unfold onboardingPOST
    rw [if_neg h]
    exact ⟨rfl, rfl⟩
  · rintro o u b k rfl ho hu hb hk
    have hg : (truthy (some o) ∧ truthy (some u) ∧
        truthy (some b) ∧ truthy (some k)) = True := by
      simp [truthy, ho, hu, hb, hk]
    constructor
    · intro hurl
      constructor <;> simp [onboardingPOST, hg, hurl]
    · intro hurl
      refine ⟨?_, ?_, ?_⟩
      · cases hs : save o ⟨u, b, k⟩ <;> simp [onboardingPOST, hg, hurl, hs]
      · intro hs
        simp [onboardingPOST, hg, hurl, hs]
      · intro sid hs
        simp [onboardingPOST, hg, hurl, hs]

/-- Witness for C10: a complete body with a parseable URL and a succeeding
save is answered with the 200 success response carrying the secret id, and
a body missing its apiKey is answered 400 with no save call. -/
theorem onboarding_route_behaviour_witness :
    (onboardingPOST (fun _ => true) (fun _ _ => .success "secret-9")
      ⟨some "org_1", some "alice", some "https://example.com", some "tok"⟩).1 =
      ⟨200, true, some "secret-9", none⟩ ∧
    (onboardingPOST (fun _ => true) (fun _ _ => .success "secret-9")
      ⟨some "org_1", some "alice", some "https://example.com", none⟩).1.status = 400 := by
  constructor
  · exact (((onboarding_route_behaviour (fun _ => true)
      (fun _ _ => .success "secret-9")
      ⟨some "org_1", some "alice", some "https://example.com", some "tok"⟩).2
      "org_1" "alice" "https://example.com" "tok" rfl
      (by decide) (by decide) (by decide) (by decide)).2 rfl).2.2 "secret-9" rfl
  · exact ((onboarding_route_behaviour (fun _ => true)
      (fun _ _ => .success "secret-9")
      ⟨some "org_1", some "alice", some "https://example.com", none⟩).1
      (by decide)).1

/-! ### Ledger reachability (for the pair-uniqueness invariant) -/

/-- Ledger states reachable from the empty ledger by successful `append`
and `markUndone` calls (failed calls leave the state unchanged). -/
inductive Reachable : Ledger → Prop where
  | init : Reachable ⟨[], []⟩
  | appendStep (L L' : Ledger) (op : MergeOp) :
      Reachable L → L.append op = .ok L' → Reachable L'
  | markUndoneStep (L L' : Ledger) (opId : ℕ) :
      Reachable L → L.markUndone opId = .ok L' → Reachable L'

/-- C4: in every reachable ledger state, any two distinct entries for the
same unordered document pair are never both completed, and `append` fails
whenever a completed, non-undone operation already exists for the same
unordered pair. -/
theorem ledger_single_active_per_pair (L : Ledger) (hL : Reachable L) :
    L.ops.Pairwise (fun a b => samePair a b = true →
      ¬ (isCompleted L a = true ∧ isCompleted L b = true)) ∧
    ∀ op', (∃ z ∈ L.ops, samePair z op' = true ∧ isCompleted L z = true) →
      L.append op' = .error () := by
  have hfail : ∀ (M : Ledger) (op' : MergeOp),
      (∃ z ∈ M.ops, samePair z op' = true ∧ isCompleted M z = true) →
      M.append op' = .error () := by
    intro M op' hex
    unfold Ledger.append
    rw [if_pos]
    simp only [List.any_eq_true, decide_eq_true_eq]
    obtain ⟨z, hz, h1, h2⟩ := hex
    exact ⟨z, hz, by simp [h1, h2]⟩
  refine ⟨?_, hfail L⟩
  induction hL with
  | init => simp
  | appendStep M L' op hM hstep ih =>
    unfold Ledger.append at hstep
    split at hstep
    · exact absurd hstep (by simp)
    · rename_i hguard
      obtain rfl : L' = ⟨M.ops ++ [op], M.undone⟩ := (Except.ok.injEq _ _).mp hstep.symm
      have hcomp : ∀ z, isCompleted (⟨M.ops ++ [op], M.undone⟩ : Ledger) z =
          isCompleted M z := fun z => rfl
      rw [List.pairwise_append]
      refine ⟨ih, by simp, ?_⟩
      intro a ha b hb hpair
      obtain rfl : b = op := by simpa using hb
      simp only [List.any_eq_true, decide_eq_true_eq, not_exists, not_and] at hguard
      intro hcc
      exact absurd hcc.1 (by simpa [hpair] using hguard a ha)
  | markUndoneStep M L' opId hM hstep ih =>
    unfold Ledger.markUndone at hstep
    split at hstep
    · obtain rfl : L' = ⟨M.ops, opId :: M.undone⟩ := (Except.ok.injEq _ _).mp hstep.symm
      refine ih.imp ?_
      intro a b hab hpair hcc
      have h1 : isCompleted M a = true := by
        have := hcc.1
        simp only [isCompleted, List.mem_cons, decide_eq_true_eq] at this ⊢
        simp only [not_or] at this
        simpa using this.2
      have h2 : isCompleted M b = true := by
        have := hcc.2
        simp only [isCompleted, List.mem_cons, decide_eq_true_eq] at this ⊢
        simp only [not_or] at this
        simpa using this.2
      exact hab hpair ⟨h1, h2⟩
    · exact absurd hstep (by simp)

/-- First example operation for the C4 witness: org_1 merges B into A. -/
def wOpAB : MergeOp := ⟨1, "org_1", 1, "A", "B", "a0", "b0", "m1"⟩

/-- Second example operation for the C4 witness: the same unordered pair
with the sides swapped. -/
def wOpBA : MergeOp := ⟨2, "org_1", 2, "B", "A", "b1", "a1", "m2"⟩

/-- Witness for C4: the one-operation ledger obtained by a successful
append is reachable, satisfies the pair-uniqueness invariant, and rejects
an append for the same unordered pair with the sides swapped. -/
theorem ledger_single_active_per_pair_witness :
    (⟨[wOpAB], []⟩ : Ledger).ops.Pairwise (fun a b => samePair a b = true →
      ¬ (isCompleted ⟨[wOpAB], []⟩ a = true ∧ isCompleted ⟨[wOpAB], []⟩ b = true)) ∧
    (⟨[wOpAB], []⟩ : Ledger).append wOpBA = .error () := by
  have hreach : Reachable ⟨[wOpAB], []⟩ :=
    .appendStep ⟨[], []⟩ ⟨[wOpAB], []⟩ wOpAB .init rfl
  refine ⟨(ledger_single_active_per_pair _ hreach).1, ?_⟩
  exact (ledger_single_active_per_pair _ hreach).2 wOpBA
    ⟨wOpAB, by simp, by decide, by decide⟩

/-! ### Properties of the most-recent selection -/

/-- The starting operation never exceeds the fold result in timestamp. -/
theorem le_mostRecent_base : ∀ (bs : List MergeOp) (b : MergeOp),
    b.timestamp ≤ (mostRecent b bs).timestamp := by
  intro bs
  induction bs with
  | nil => intro b; exact le_refl _
  | cons z bs ih =>
    intro b
    show b.timestamp ≤ (mostRecent (if b.timestamp < z.timestamp then z else b) bs).timestamp
    refine le_trans ?_ (ih _)
    split
    · exact le_of_lt (by assumption)
    · exact le_refl _

/-- The most recent selection is an element of the candidate list. -/
theorem mostRecent_mem : ∀ (bs : List MergeOp) (b : MergeOp),
    mostRecent b bs ∈ b :: bs := by
  intro bs
  induction bs with
  | nil => intro b; exact List.mem_singleton.mpr rfl
  | cons z bs ih =>
    intro b
    have h := ih (if b.timestamp < z.timestamp then z else b)
    rcases List.mem_cons.mp h with h | h
    · rw [show mostRecent b (z :: bs) =
        mostRecent (if b.timestamp < z.timestamp then z else b) bs from rfl, h]
      split
      · exact List.mem_cons_of_mem _ (List.mem_cons_self _ _)
      · exact List.mem_cons_self _ _
    · exact List.mem_cons_of_mem _ (List.mem_cons_of_mem _ h)

/-- The most recent selection dominates every candidate in timestamp. -/
theorem le_mostRecent : ∀ (bs : List MergeOp) (b z : MergeOp), z ∈ b :: bs →
    z.timestamp ≤ (mostRecent b bs).timestamp := by
  intro bs
  induction bs with
  | nil =>
    intro b z hz
    obtain rfl : z = b := by simpa using hz
    exact le_refl _
  | cons w bs ih =>
    intro b z hz
    have hstep : mostRecent b (w :: bs) =
        mostRecent (if b.timestamp < w.timestamp then w else b) bs := rfl
    rw [hstep]
    rcases List.mem_cons.mp hz with rfl | hz
    · refine le_trans ?_ (le_mostRecent_base bs _)
      split
      · exact le_of_lt (by assumption)
      · exact le_refl _
    · rcases List.mem_cons.mp hz with rfl | hz
      · refine le_trans ?_ (le_mostRecent_base bs _)
        split
        · exact le_refl _
        · exact le_of_not_lt (by assumption)
      · exact ih _ z (List.mem_cons_of_mem _ hz)

/-! ### Sequential undo -/

/-- Completed-status transfer: undone ids only grow, so completion in a
ledger with an extra undone id implies completion before. -/
theorem isCompleted_cons (ops : List MergeOp) (u : List ℕ) (i : ℕ) (z : MergeOp)
    (h : isCompleted ⟨ops, i :: u⟩ z = true) : isCompleted ⟨ops, u⟩ z = true := by
  simp only [isCompleted, List.mem_cons, decide_eq_true_eq, not_or] at h ⊢
  exact h.2

/-- C1 (amended): whenever the blocking set of a target operation X is
nonempty, undo rejects X with SequentialUndoRequired reporting the ids of
the blocking set and naming as nextRequiredUndo a blocker of maximal
timestamp; and when a completed operation Y is the only blocking operation
of X, undo of Y succeeds and undo of X succeeds immediately afterwards. -/
theorem undo_sequential :
    (∀ (S : SysState) (t : String) (X b : MergeOp) (bs : List MergeOp),
      findOp S.ledger t X.id = some X →
      blockers S.ledger t X = b :: bs →
      ∃ B, undoOp S t X.id =
          .error (.sequentialUndoRequired B.id ((b :: bs).map MergeOp.id)) ∧
        B ∈ b :: bs ∧ ∀ Z ∈ b :: bs, Z.timestamp ≤ B.timestamp) ∧
    (∀ (S : SysState) (t : String) (X Y : MergeOp),
      findOp S.ledger t X.id = some X →
      findOp S.ledger t Y.id = some Y →
      isCompleted S.ledger X = true →
      blockers S.ledger t X = [Y] →
      blockers S.ledger t Y = [] →
      ∃ S', undoOp S t Y.id = .ok S' ∧ ∃ S'', undoOp S' t X.id = .ok S'') := by
  constructor
  · intro S t X b bs hf hb
    refine ⟨mostRecent b bs, ?_, mostRecent_mem bs b, fun Z hZ => le_mostRecent bs b Z hZ⟩
    simp only [undoOp, hf, hb]
  · intro S t X Y hfX hfY hXc hbX hbY
    -- facts about Y extracted from its membership in the blocking set of X
    have hYmem : Y ∈ blockers S.ledger t X := by rw [hbX]; exact List.mem_cons_self _ _
    have hYfacts : isCompleted S.ledger Y = true ∧ X.timestamp < Y.timestamp := by
      have := List.mem_filter.mp hYmem
      simpa using this.2
    have hYops : Y ∈ S.ledger.ops := List.mem_of_find?_eq_some hfY
    have hXops : X ∈ S.ledger.ops := List.mem_of_find?_eq_some hfX
    have hne : X.id ≠ Y.id := by
      intro he
      rw [he, hfY] at hfX
      obtain rfl : X = Y := (Option.some_inj.mp hfX).symm
      exact absurd hYfacts.2 (lt_irrefl _)
    -- the undo of Y goes through markUndone successfully
    have hmu : S.ledger.markUndone Y.id = .ok ⟨S.ledger.ops, Y.id :: S.ledger.undone⟩ := by
      unfold Ledger.markUndone
      rw [if_pos]
      simp only [List.any_eq_true, decide_eq_true_eq]
      exact ⟨Y, hYops, by simp [hYfacts.1]⟩
    refine ⟨⟨repoSet (repoSet S.repo Y.deletedDocId Y.deletedDocSnapshot)
        Y.keptDocId Y.keptPreMergeSnapshot,
      indexUpsert (indexUpsert S.index Y.deletedDocId) Y.keptDocId,
      ⟨S.ledger.ops, Y.id :: S.ledger.undone⟩⟩, ?_, ?_⟩
    · simp only [undoOp, hfY, hbY, hmu]
    · set L' : Ledger := ⟨S.ledger.ops, Y.id :: S.ledger.undone⟩ with hL'
      -- the ledger after undoing Y has the same operations, so lookups and
      -- lineages are unchanged, and the blocking set of X becomes empty
      have hfX' : findOp L' t X.id = some X := hfX
      have hbX' : blockers L' t X = [] := by
        unfold blockers at hbX ⊢
        rw [List.filter_eq_nil_iff]
        intro z hz
        have hz0 : z ∈ ((lineageFor S.ledger t X.keptDocId ++
            lineageFor S.ledger t X.deletedDocId).dedup) := hz
        simp only [decide_eq_true_eq, not_and]
        intro hzc hzt
        have hzc0 : isCompleted S.ledger z = true :=
          isCompleted_cons S.ledger.ops S.ledger.undone Y.id z hzc
        have hzin : z ∈ ((lineageFor S.ledger t X.keptDocId ++
            lineageFor S.ledger t X.deletedDocId).dedup).filter
            (fun z => decide (isCompleted S.ledger z = true ∧
              X.timestamp < z.timestamp)) :=
          List.mem_filter.mpr ⟨hz0, by simp [hzc0, hzt]⟩
        rw [hbX] at hzin
        have he : z = Y := by simpa using hzin
        have hYin : Y.id ∈ L'.undone := by rw [hL']; exact List.mem_cons_self _ _
        rw [he] at hzc
        simp [isCompleted, hYin] at hzc
      have hmu' : L'.markUndone X.id = .ok ⟨L'.ops, X.id :: L'.undone⟩ := by
        unfold Ledger.markUndone
        rw [if_pos]
        simp only [List.any_eq_true, decide_eq_true_eq]
        refine ⟨X, hXops, rfl, ?_⟩
        simp only [isCompleted, decide_eq_true_eq, hL', List.mem_cons, not_or]
        refine ⟨hne, ?_⟩
        simpa [isCompleted] using hXc
      refine ⟨⟨repoSet (repoSet (repoSet (repoSet S.repo Y.deletedDocId Y.deletedDocSnapshot)
          Y.keptDocId Y.keptPreMergeSnapshot) X.deletedDocId X.deletedDocSnapshot)
          X.keptDocId X.keptPreMergeSnapshot,
        indexUpsert (indexUpsert (indexUpsert (indexUpsert S.index Y.deletedDocId)
          Y.keptDocId) X.deletedDocId) X.keptDocId,
        ⟨L'.ops, X.id :: L'.undone⟩⟩, ?_⟩
      simp only [undoOp, hfX', hbX', hmu']

/-- Operation 1 of the C1 counterexample ledger: org_1 merges B into A at
time 1. -/
def exOpX : MergeOp := ⟨1, "org_1", 1, "A", "B", "ka1", "kb", "m1"⟩

/-- Operation 2 of the C1 counterexample ledger: org_1 merges C into A at
time 2. -/
def exOpW : MergeOp := ⟨2, "org_1", 2, "A", "C", "ka2", "kc", "m2"⟩

/-- Operation 3 of the C1 counterexample ledger: org_1 merges D into A at
time 3. -/
def exOpY : MergeOp := ⟨3, "org_1", 3, "A", "D", "ka3", "kd", "m3"⟩

/-- The counterexample ledger holding the three completed operations. -/
def exLedger : Ledger := ⟨[exOpX, exOpW, exOpY], []⟩

/-- The counterexample system state. -/
def exS : SysState := ⟨[], [], exLedger⟩

/-- The state after successfully undoing operation 3. -/
def exS1 : SysState :=
  ⟨[("A", "ka3"), ("D", "kd")], ["A", "D"], ⟨[exOpX, exOpW, exOpY], [3]⟩⟩

/-- Counterexample to C1 as stated: in a three-operation lineage, X (op 1)
and Y (op 3) are completed operations of the same lineage with X earlier,
and Y is the single most recent completed blocker of X, yet after undo(Y)
succeeds, undo(X) still fails — it is blocked by the middle operation
(op 2), so the final clause of the claim does not hold for this pair. -/
theorem undo_sequential_cex :
    isCompleted exLedger exOpX = true ∧ isCompleted exLedger exOpY = true ∧
    exOpY ∈ lineageFor exLedger "org_1" exOpX.keptDocId ∧
    exOpX.timestamp < exOpY.timestamp ∧
    blockers exLedger "org_1" exOpX = [exOpW, exOpY] ∧
    mostRecent exOpW [exOpY] = exOpY ∧
    undoOp exS "org_1" exOpY.id = .ok exS1 ∧
    undoOp exS1 "org_1" exOpX.id =
      .error (.sequentialUndoRequired exOpW.id [exOpW.id]) := by
  refine ⟨by decide, by decide, by decide, by decide, by decide, by decide, ?_, ?_⟩
  · show undoOp exS "org_1" 3 = .ok exS1
    rfl
  · show undoOp exS1 "org_1" 1 = .error (.sequentialUndoRequired 2 [2])
    rfl

/-- First operation of the two-operation scenario ledger for the C1
witness. -/
def wSeqX : MergeOp := ⟨1, "org_1", 1, "A", "B", "a0", "b0", "m1"⟩

/-- Second operation of the two-operation scenario ledger for the C1
witness. -/
def wSeqY : MergeOp := ⟨2, "org_1", 2, "A", "C", "a1", "c0", "m2"⟩

/-- The two-operation scenario state for the C1 witness. -/
def wSeqS : SysState := ⟨[], [], ⟨[wSeqX, wSeqY], []⟩⟩

/-- Witness for C1: in the lineage consisting of exactly X then Y, undo of
X is rejected naming Y, and undo of Y followed by undo of X succeeds. -/
theorem undo_sequential_witness :
    undoOp wSeqS "org_1" 1 = .error (.sequentialUndoRequired 2 [2]) ∧
    ∃ S', undoOp wSeqS "org_1" 2 = .ok S' ∧ ∃ S'', undoOp S' "org_1" 1 = .ok S'' := by
  constructor
  · obtain ⟨B, hB, hmem, -⟩ :=
      undo_sequential.1 wSeqS "org_1" wSeqX wSeqY [] (by decide) (by decide)
    obtain rfl : B = wSeqY := by simpa using hmem
    exact hB
  · exact undo_sequential.2 wSeqS "org_1" wSeqX wSeqY
      (by decide) (by decide) (by decide) (by decide) (by decide)

/-! ### Repository and index lemmas -/

/-- Reading a document right after writing it returns the written
content. -/
theorem repoGet_set_self (r : Repo) (k c : String) :
    repoGet (repoSet r k c) k = some c := by
  simp [repoGet, repoSet, List.find?]

/-- Writing one document leaves every other lookup unchanged. -/
theorem repoGet_set_ne (r : Repo) (k c d : String) (h : d ≠ k) :
    repoGet (repoSet r k c) d = repoGet r d := by
  unfold repoGet repoSet repoDelete
  rw [List.find?_cons_of_neg _ (by simpa using fun he => h he.symm)]
  congr 1
  induction r with
  | nil => rfl
  | cons e rs ih =>
    by_cases he : e.1 = k
    · rw [List.filter_cons_of_neg (by simp [he]),
        List.find?_cons_of_neg _ (by simp [he]; exact fun hh => h hh.symm)]
      exact ih
    · rw [List.filter_cons_of_pos (by simp [he])]
      by_cases hdd : e.1 = d
      · rw [List.find?_cons_of_pos _ (by simp [hdd]),
          List.find?_cons_of_pos _ (by simp [hdd])]
      · rw [List.find?_cons_of_neg _ (by simp [hdd]),
          List.find?_cons_of_neg _ (by simp [hdd])]
        exact ih

/-- A removed document id is absent from the index. -/
theorem not_mem_indexRemove (idx : Index) (d : String) :
    ¬ d ∈ indexRemove idx d := by
  simp [indexRemove]

/-- Upserting a different id does not make an absent id present. -/
theorem not_mem_indexUpsert (idx : Index) (d k : String) (hne : d ≠ k)
    (h : ¬ d ∈ idx) : ¬ d ∈ indexUpsert idx k := by
  unfold indexUpsert
  split
  · exact h
  · simp [hne, h]

/-- C5: the orchestrator never performs the delete without the update
having been performed first (each run's repository mutation trace is a
prefix of update-then-delete); a successful merge leaves a completed
operation for the pair in the ledger and the deleted document absent from
the vector index; and a PartialMergeState outcome means the update
succeeded, the delete failed, the deleted document is still in the
repository, and no ledger entry was written. -/
theorem merge_update_before_delete (env : MergeEnv) (draft : String → String → String)
    (S : SysState) (t keptId deletedId : String) (opId ts : ℕ) (ca cb : String)
    (res : Except MergeError MergeOp) (S' : SysState) (tr : List RepoEvent)
    (hk : repoGet S.repo keptId = some ca)
    (hd : repoGet S.repo deletedId = some cb)
    (hkd : deletedId ≠ keptId)
    (hfresh : ¬ opId ∈ S.ledger.undone)
    (hrun : mergeOp env draft S t keptId deletedId opId ts = (res, S', tr)) :
    (tr = [] ∨ tr = [.update keptId (draft ca cb)] ∨
      tr = [.update keptId (draft ca cb), .delete deletedId]) ∧
    (∀ op, res = .ok op →
      op ∈ S'.ledger.ops ∧ isCompleted S'.ledger op = true ∧
      op.keptDocId = keptId ∧ op.deletedDocId = deletedId ∧
      ¬ deletedId ∈ S'.index ∧
      tr = [.update keptId (draft ca cb), .delete deletedId]) ∧
    (res = .error .partialMergeState →
      env.updateOk = true ∧ env.deleteOk = false ∧
      repoGet S'.repo keptId = some (draft ca cb) ∧
      repoGet S'.repo deletedId = some cb ∧
      S'.ledger = S.ledger) := by
  by_cases h1 : env.draftOk = true
  · by_cases h2 : env.updateOk = true
    · by_cases h3 : env.deleteOk = true
      · by_cases h4 : env.embedOk = true
        · -- all external calls succeed: the run reaches the ledger append
          simp only [mergeOp, hk, hd, h1, h2, h3, h4, if_true] at hrun
          rcases hap : S.ledger.append
              ⟨opId, t, ts, keptId, deletedId, ca, cb, draft ca cb⟩ with e | L'
          · rw [hap] at hrun
            cases hrun
            refine ⟨by simp, fun op h => by simp at h, fun h => by simp at h⟩
          · rw [hap] at hrun
            cases hrun
            refine ⟨by simp, ?_, fun h => by simp at h⟩
            intro op h
            obtain rfl :
                (⟨opId, t, ts, keptId, deletedId, ca, cb, draft ca cb⟩ : MergeOp) = op :=
              by simpa using h
            unfold Ledger.append at hap
            split at hap
            · exact absurd hap (by simp)
            · obtain rfl : L' = ⟨S.ledger.ops ++
                  [⟨opId, t, ts, keptId, deletedId, ca, cb, draft ca cb⟩],
                  S.ledger.undone⟩ := (Except.ok.injEq _ _).mp hap.symm
              refine ⟨List.mem_append_right _ (List.mem_singleton.mpr rfl),
                by simp [isCompleted, hfresh], rfl, rfl, ?_, rfl⟩
              exact not_mem_indexUpsert _ _ _ hkd (not_mem_indexRemove S.index deletedId)
        · -- embedding fails after both repository mutations
          simp only [mergeOp, hk, hd, h1, h2, h3, h4, if_true] at hrun
          rw [if_neg (by simp)] at hrun
          cases hrun
          refine ⟨by simp, fun op h => by simp at h, fun h => by simp at h⟩
      · -- the delete fails after a successful update: PartialMergeState
        simp only [mergeOp, hk, hd, h1, h2, if_true] at hrun
        rw [if_neg h3] at hrun
        cases hrun
        refine ⟨by simp, fun op h => by simp at h, fun _ => ?_⟩
        refine ⟨h2, Bool.not_eq_true _ |>.mp h3, repoGet_set_self _ _ _, ?_, rfl⟩
        rw [repoGet_set_ne _ _ _ _ hkd]
        exact hd
    · -- the kept-side update fails: nothing is mutated
      simp only [mergeOp, hk, hd, h1, if_true] at hrun
      rw [if_neg h2] at hrun
      cases hrun
      refine ⟨by simp, fun op h => by simp at h, fun h => by simp at h⟩
  · -- the draft step fails: nothing is mutated
    simp only [mergeOp, hk, hd] at hrun
    rw [if_neg h1] at hrun
    cases hrun
    refine ⟨by simp, fun op h => by simp at h, fun h => by simp at h⟩

/-- Initial system state for the orchestrator witnesses: two documents A
and B with contents ca and cb, both indexed, empty ledger. -/
def wMergeS : SysState := ⟨[("A", "ca"), ("B", "cb")], ["A", "B"], ⟨[], []⟩⟩

/-- Witness for C5: a fully successful merge of B into A appends the
completed operation, removes B from the index, and its trace is the update
followed by the delete. -/
theorem merge_update_before_delete_witness :
    (⟨1, "org_1", 1, "A", "B", "ca", "cb", "cacb"⟩ : MergeOp) ∈
      (mergeOp ⟨true, true, true, true⟩ (fun a b => a ++ b) wMergeS
        "org_1" "A" "B" 1 1).2.1.ledger.ops ∧
    ¬ "B" ∈ (mergeOp ⟨true, true, true, true⟩ (fun a b => a ++ b) wMergeS
        "org_1" "A" "B" 1 1).2.1.index ∧
    (mergeOp ⟨true, true, true, true⟩ (fun a b => a ++ b) wMergeS
        "org_1" "A" "B" 1 1).2.2 =
      [.update "A" "cacb", .delete "B"] := by
  have h := merge_update_before_delete ⟨true, true, true, true⟩ (fun a b => a ++ b)
    wMergeS "org_1" "A" "B" 1 1 "ca" "cb"
    (mergeOp ⟨true, true, true, true⟩ (fun a b => a ++ b) wMergeS "org_1" "A" "B" 1 1).1
    (mergeOp ⟨true, true, true, true⟩ (fun a b => a ++ b) wMergeS "org_1" "A" "B" 1 1).2.1
    (mergeOp ⟨true, true, true, true⟩ (fun a b => a ++ b) wMergeS "org_1" "A" "B" 1 1).2.2
    rfl rfl (by decide) (by decide) rfl
  have h2 := h.2.1 ⟨1, "org_1", 1, "A", "B", "ca", "cb", "cacb"⟩ rfl
  exact ⟨h2.1, h2.2.2.2.2.1, h2.2.2.2.2.2⟩

/-- Shape of a successful merge run: the created operation carries the two
snapshots and the merged content, and the final ledger is the initial one
with the operation appended. -/
theorem mergeOp_ok_inv (env : MergeEnv) (draft : String → String → String)
    (S : SysState) (t keptId deletedId : String) (opId ts : ℕ) (ca cb : String)
    (op : MergeOp) (S' : SysState) (tr : List RepoEvent)
    (hk : repoGet S.repo keptId = some ca)
    (hd : repoGet S.repo deletedId = some cb)
    (hrun : mergeOp env draft S t keptId deletedId opId ts = (.ok op, S', tr)) :
    op = ⟨opId, t, ts, keptId, deletedId, ca, cb, draft ca cb⟩ ∧
    S'.ledger = ⟨S.ledger.ops ++ [op], S.ledger.undone⟩ := by
  by_cases h1 : env.draftOk = true
  · by_cases h2 : env.updateOk = true
    · by_cases h3 : env.deleteOk = true
      · by_cases h4 : env.embedOk = true
        · simp only [mergeOp, hk, hd, h1, h2, h3, h4, if_true] at hrun
          rcases hap : S.ledger.append
              ⟨opId, t, ts, keptId, deletedId, ca, cb, draft ca cb⟩ with e | L'
          · rw [hap] at hrun
            exact absurd (congrArg Prod.fst hrun) (by simp)
          · rw [hap] at hrun
            cases hrun
            refine ⟨rfl, ?_⟩
            show L' = _
            unfold Ledger.append at hap
            split at hap
            · exact absurd hap (by simp)
            · exact ((Except.ok.injEq _ _).mp hap).symm
        · simp only [mergeOp, hk, hd, h1, h2, h3, h4, if_true] at hrun
          rw [if_neg (by simp)] at hrun
          exact absurd (congrArg Prod.fst hrun) (by simp)
      · simp only [mergeOp, hk, hd, h1, h2, if_true] at hrun
        rw [if_neg h3] at hrun
        exact absurd (congrArg Prod.fst hrun) (by simp)
    · simp only [mergeOp, hk, hd, h1, if_true] at hrun
      rw [if_neg h2] at hrun
      exact absurd (congrArg Prod.fst hrun) (by simp)
  · simp only [mergeOp, hk, hd] at hrun
    rw [if_neg h1] at hrun
    exact absurd (congrArg Prod.fst hrun) (by simp)

/-- C3: a merge that completes and is then undone with nothing blocking it
restores the kept document byte-for-byte to the pre-merge snapshot — which
equals its content before the merge — and recreates the deleted document
byte-for-byte from its snapshot — which equals its content before the
merge. -/
theorem merge_undo_roundtrip (env : MergeEnv) (draft : String → String → String)
    (S : SysState) (t keptId deletedId : String) (opId ts : ℕ) (ca cb : String)
    (op : MergeOp) (S' : SysState) (tr : List RepoEvent)
    (hk : repoGet S.repo keptId = some ca)
    (hd : repoGet S.repo deletedId = some cb)
    (hkd : deletedId ≠ keptId)
    (hfresh : ¬ opId ∈ S.ledger.undone)
    (hrun : mergeOp env draft S t keptId deletedId opId ts = (.ok op, S', tr))
    (hfind : findOp S'.ledger t op.id = some op)
    (hnb : blockers S'.ledger t op = []) :
    ∃ S'', undoOp S' t op.id = .ok S'' ∧
      repoGet S''.repo keptId = some op.keptPreMergeSnapshot ∧
      op.keptPreMergeSnapshot = ca ∧
      repoGet S''.repo deletedId = some op.deletedDocSnapshot ∧
      op.deletedDocSnapshot = cb := by
  obtain ⟨hop, hled⟩ := mergeOp_ok_inv env draft S t keptId deletedId opId ts
    ca cb op S' tr hk hd hrun
  have hcomp : isCompleted S'.ledger op = true := by
    rw [hled]
    simpa [isCompleted, hop] using hfresh
  have hops : op ∈ S'.ledger.ops := by
    rw [hled]
    exact List.mem_append_right _ (List.mem_singleton.mpr rfl)
  have hmu : S'.ledger.markUndone op.id =
      .ok ⟨S'.ledger.ops, op.id :: S'.ledger.undone⟩ := by
    unfold Ledger.markUndone
    rw [if_pos]
    simp only [List.any_eq_true, decide_eq_true_eq]
    exact ⟨op, hops, by simp [hcomp]⟩
  refine ⟨⟨repoSet (repoSet S'.repo op.deletedDocId op.deletedDocSnapshot)
      op.keptDocId op.keptPreMergeSnapshot,
    indexUpsert (indexUpsert S'.index op.deletedDocId) op.keptDocId,
    ⟨S'.ledger.ops, op.id :: S'.ledger.undone⟩⟩, ?_, ?_, ?_, ?_, ?_⟩
  · simp only [undoOp, hfind, hnb, hmu]
  · rw [show op.keptDocId = keptId from by rw [hop]]
    exact repoGet_set_self _ _ _
  · rw [hop]
  · rw [show op.keptDocId = keptId from by rw [hop],
      show op.deletedDocId = deletedId from by rw [hop]]
    rw [repoGet_set_ne _ _ _ _ hkd]
    exact repoGet_set_self _ _ _
  · rw [hop]

/-- Final state of the C3 witness run: contents of A and B restored, both
back in the index, the operation marked undone. -/
def wUndoS : SysState :=
  ⟨[("A", "ca"), ("B", "cb")], ["B", "A"],
   ⟨[⟨1, "org_1", 1, "A", "B", "ca", "cb", "cacb"⟩], [1]⟩⟩

/-- Witness for C3: merging B into A from the two-document state and then
undoing restores both documents byte-for-byte. -/
theorem merge_undo_roundtrip_witness :
    repoGet wUndoS.repo "A" = some "ca" ∧ repoGet wUndoS.repo "B" = some "cb" ∧
    undoOp (mergeOp ⟨true, true, true, true⟩ (fun a b => a ++ b) wMergeS
      "org_1" "A" "B" 1 1).2.1 "org_1" 1 = .ok wUndoS := by
  obtain ⟨S'', hS, h1, he1, h2, he2⟩ :=
    merge_undo_roundtrip ⟨true, true, true, true⟩ (fun a b => a ++ b) wMergeS
      "org_1" "A" "B" 1 1 "ca" "cb"
      ⟨1, "org_1", 1, "A", "B", "ca", "cb", "cacb"⟩
      (mergeOp ⟨true, true, true, true⟩ (fun a b => a ++ b) wMergeS
        "org_1" "A" "B" 1 1).2.1
      (mergeOp ⟨true, true, true, true⟩ (fun a b => a ++ b) wMergeS
        "org_1" "A" "B" 1 1).2.2
      rfl rfl (by decide) (by decide) rfl (by decide) (by decide)
  have hload : undoOp (mergeOp ⟨true, true, true, true⟩ (fun a b => a ++ b) wMergeS
      "org_1" "A" "B" 1 1).2.1 "org_1" 1 = .ok wUndoS := rfl
  obtain rfl : wUndoS = S'' := by
    have := hload.symm.trans hS
    simpa using this
  exact ⟨h1, h2, hload⟩

/-! ### Pairing engine lemmas -/

/-- Membership in the canonical pair list: exactly the ordered pairs of
members. -/
theorem mem_canonPairs {l : List ℕ} {p : ℕ × ℕ} :
    p ∈ canonPairs l ↔ p.1 ∈ l ∧ p.2 ∈ l ∧ p.1 < p.2 := by
  obtain ⟨a, b⟩ := p
  unfold canonPairs
  simp only [List.mem_flatMap, List.mem_filterMap]
  constructor
  · rintro ⟨x, hx, y, hy, hxy⟩
    by_cases h : x < y
    · rw [if_pos h] at hxy
      obtain ⟨rfl, rfl⟩ := Prod.mk.injEq .. |>.mp (Option.some_inj.mp hxy)
      exact ⟨hx, hy, h⟩
    · rw [if_neg h] at hxy
      exact absurd hxy (by simp)
  · rintro ⟨ha, hb, hab⟩
    exact ⟨a, ha, b, hb, by rw [if_pos hab]⟩

/-- Every pair produced for a fixed first id carries that id. -/
theorem canonBlock_fst {l : List ℕ} {a : ℕ} {p : ℕ × ℕ}
    (h : p ∈ l.filterMap (fun b => if a < b then some (a, b) else none)) :
    p.1 = a := by
  simp only [List.mem_filterMap] at h
  obtain ⟨y, hy, hxy⟩ := h
  by_cases hlt : a < y
  · rw [if_pos hlt] at hxy
    obtain rfl := Option.some_inj.mp hxy
    rfl
  · rw [if_neg hlt] at hxy
    exact absurd hxy (by simp)

/-- The block of canonical pairs for one first id has no duplicates. -/
theorem nodup_canonBlock {l : List ℕ} (hl : l.Nodup) (a : ℕ) :
    (l.filterMap (fun b => if a < b then some (a, b) else none)).Nodup := by
  refine List.Nodup.filterMap ?_ hl
  intro x x' q hx hx'
  rw [Option.mem_def] at hx hx'
  by_cases h1 : a < x
  · rw [if_pos h1] at hx
    by_cases h2 : a < x'
    · rw [if_pos h2] at hx'
      obtain rfl := Option.some_inj.mp hx
      obtain h := Option.some_inj.mp hx'
      exact ((Prod.mk.injEq .. |>.mp h).2).symm
    · rw [if_neg h2] at hx'
      exact absurd hx' (by simp)
  · rw [if_neg h1] at hx
    exact absurd hx (by simp)

/-- The canonical pair list of a duplicate-free id list is duplicate
free. -/
theorem nodup_canonPairs {l : List ℕ} (hl : l.Nodup) : (canonPairs l).Nodup := by
  unfold canonPairs
  suffices h : ∀ outer : List ℕ, outer.Nodup →
      (outer.flatMap
        (fun a => l.filterMap (fun b => if a < b then some (a, b) else none))).Nodup by
    exact h l hl
  intro outer houter
  induction outer with
  | nil => simp
  | cons a os ih =>
    rw [List.flatMap_cons, List.nodup_append]
    obtain ⟨hna, hnos⟩ := List.nodup_cons.mp houter
    refine ⟨nodup_canonBlock hl a, ih hnos, ?_⟩
    intro p hp hq
    have h1 : p.1 = a := canonBlock_fst hp
    obtain ⟨x, hx, hpx⟩ := List.mem_flatMap.mp hq
    have h2 : p.1 = x := canonBlock_fst hpx
    exact hna ((h1.symm.trans h2) ▸ hx)

/-- C6: the candidate pair listing is sorted by the ranking order —
strictly greater similarity first, ties broken by the older (smaller)
document id — and it is a deterministic function of the index state: any
two lists holding the same set of documents produce the identical ordered
output. -/
theorem pairing_sorted_deterministic (sim : ℕ → ℕ → ℚ) (t : String) (θ : ℚ)
    (excluded : ℕ × ℕ → Bool) (idx₁ idx₂ : List Doc)
    (hperm : idx₁.Perm idx₂) (hnd : (idx₁.map Doc.id).Nodup) :
    (listCandidatePairs sim t θ excluded idx₁).Sorted pairOrder ∧
    listCandidatePairs sim t θ excluded idx₁ =
      listCandidatePairs sim t θ excluded idx₂ := by
  have hnd₂ : (idx₂.map Doc.id).Nodup := ((hperm.map Doc.id).nodup_iff).mp hnd
  have hndd₁ : ((idx₁.filter (fun d => d.tenantId = t)).map Doc.id).Nodup :=
    List.Nodup.sublist ((List.filter_sublist idx₁).map Doc.id) hnd
  have hndd₂ : ((idx₂.filter (fun d => d.tenantId = t)).map Doc.id).Nodup :=
    List.Nodup.sublist ((List.filter_sublist idx₂).map Doc.id) hnd₂
  have dperm : ((idx₁.filter (fun d => d.tenantId = t)).map Doc.id).Perm
      ((idx₂.filter (fun d => d.tenantId = t)).map Doc.id) :=
    (hperm.filter _).map _
  have cperm : (canonPairs ((idx₁.filter (fun d => d.tenantId = t)).map Doc.id)).Perm
      (canonPairs ((idx₂.filter (fun d => d.tenantId = t)).map Doc.id)) := by
    rw [List.perm_ext_iff_of_nodup (nodup_canonPairs hndd₁) (nodup_canonPairs hndd₂)]
    intro p
    rw [mem_canonPairs, mem_canonPairs, dperm.mem_iff, dperm.mem_iff]
  have eperm := (cperm.filter
      (fun p => decide (θ ≤ sim p.1 p.2 ∧ ¬ excluded p = true))).map
    (fun p => (sim p.1 p.2, p.1, p.2))
  unfold listCandidatePairs
  refine ⟨List.sorted_insertionSort pairOrder _, ?_⟩
  exact List.eq_of_perm_of_sorted
    (((List.perm_insertionSort pairOrder _).trans eperm).trans
      (List.perm_insertionSort pairOrder _).symm)
    (List.sorted_insertionSort pairOrder _)
    (List.sorted_insertionSort pairOrder _)

/-- Index content for the C6 witness. -/
def wIdx1 : List Doc := [⟨1, "t1"⟩, ⟨2, "t1"⟩, ⟨3, "t1"⟩, ⟨4, "t2"⟩]

/-- The same index content listed in a different order. -/
def wIdx2 : List Doc := [⟨4, "t2"⟩, ⟨3, "t1"⟩, ⟨2, "t1"⟩, ⟨1, "t1"⟩]

/-- Similarity capability for the C6 witness, on a 0 to 100 scale. -/
def wSim (a b : ℕ) : ℚ :=
  if a = 1 ∧ b = 2 then 90
  else if a = 1 ∧ b = 3 then 90
  else if a = 2 ∧ b = 3 then 70
  else 0

/-- Witness for C6: on a four-document index the listing is sorted, equal
for both orderings of the index state, and evaluates to the concrete
descending ranking with the similarity tie between pairs (1,2) and (1,3)
broken by the older ids. -/
theorem pairing_sorted_deterministic_witness :
    listCandidatePairs wSim "t1" 70 (fun _ => false) wIdx1 =
      listCandidatePairs wSim "t1" 70 (fun _ => false) wIdx2 ∧
    (listCandidatePairs wSim "t1" 70 (fun _ => false) wIdx1).Sorted pairOrder ∧
    listCandidatePairs wSim "t1" 70 (fun _ => false) wIdx1 =
      [(90, 1, 2), (90, 1, 3), (70, 2, 3)] := by
  have h := pairing_sorted_deterministic wSim "t1" 70 (fun _ => false)
    wIdx1 wIdx2 (by decide) (by decide)
  exact ⟨h.2, h.1, by decide⟩

end DocJan
